import Mathlib

/-!
# Verification of the centrim-docgen commit-documentation pipeline

Shallow embedding of `src/centrim-docgen/src/extension.ts` (the VS Code
extension shell) plus spec-modelled definitions for the Python pipeline
(`src/python_scripts/main.py`), which is shipped with the extension but is
not part of the checked-in sources.

Strings that the code treats as character sequences (diff text, log file
content) are embedded as `String` or `List Char`; the JavaScript notion of
a "truthy" string (non-empty) is made explicit where the source relies on
it. Network liveness (`fetch` resolving with `response.ok`) is abstracted
as a predicate `alive : String → Bool` on URLs; a thrown/failed fetch and
a non-ok response both count as `alive url = false`, exactly as both are
swallowed by the source's `try { ... } catch (e) { }` / `response.ok`
pattern.
-/

namespace CentrimDocgen

/-! ## Endpoint probing (extension.ts lines 127-151, 216-248, 253-276) -/

def localhostUrl : String := "http://localhost:11434"

def loopbackUrl : String := "http://127.0.0.1:11434"

/-- The candidate construction shared verbatim by the three probe sites
(`checkOllamaStatusInSidebar` lines 128-133, `_checkOllamaStatus` lines
217-222, `_generateDocs` lines 254-259):
`[userUrl, 'http://localhost:11434', 'http://127.0.0.1:11434'].filter(u => typeof u === 'string' && !!u)`.
`userUrl` is the value read from configuration section `centrimDocGen`,
key `ollamaUrl`; `none` models `undefined`, and the JS filter drops
non-strings and the empty string. -/
def candidates (userUrl : Option String) : List String :=
  [userUrl, some localhostUrl, some loopbackUrl].filterMap
    (fun u =>
      match u with
      | some s => if s = "" then none else some s
      | none => none)

/-- The probe loop shared verbatim by the three probe sites: iterate the
candidates in order, `fetch` each, and `break` on the first with
`response.ok`; exceptions are swallowed and the loop continues. -/
def probeLoop (alive : String → Bool) : List String → Option String
  | [] => none
  | url :: rest => if alive url then some url else probeLoop alive rest

/-- Workspace configuration state, one field per section/key pair the
source touches. Note the two distinct section names: the probe sites use
`centrimDocGen` (capital G, not declared in package.json), while the
`checkStatus` command (line 934) and the diff-limit default lookup
(line 314) use `centrimDocgen` (lowercase g, the section declared in the
extension manifest). -/
structure Config where
  /-- section `centrimDocGen`, key `ollamaUrl` (read/written by the probes) -/
  docGenUrl : Option String
  /-- section `centrimDocgen`, key `ollamaUrl` (read by `checkStatus`) -/
  docgenUrl : Option String
  /-- section `centrimDocgen`, key `diffLimit` (read at line 314) -/
  docgenDiffLimit : Option Nat
  deriving Repr, DecidableEq

/-- The probe result of any of the three probe sites (`checkOllamaStatusInSidebar`,
`_checkOllamaStatus`, `_generateDocs` pre-generation check): first candidate
whose liveness request succeeds. -/
def sidebarProbe (alive : String → Bool) (cfg : Config) : Option String :=
  probeLoop alive (candidates cfg.docGenUrl)

/-- `_checkOllamaStatus` (panel check, lines 216-232) builds the identical
candidate list and loop. -/
def panelProbe (alive : String → Bool) (cfg : Config) : Option String :=
  probeLoop alive (candidates cfg.docGenUrl)

/-- `_generateDocs` pre-generation check (lines 253-269): identical
candidate list and loop. -/
def generateDocsProbe (alive : String → Bool) (cfg : Config) : Option String :=
  probeLoop alive (candidates cfg.docGenUrl)

/-- The persist step shared by the three probe sites (lines 147, 240, 276):
when a candidate responded, write the discovered URL back into section
`centrimDocGen`, key `ollamaUrl` (workspace target); when none responded,
no configuration update is performed. -/
def probeAndPersist (alive : String → Bool) (cfg : Config) : Config :=
  match probeLoop alive (candidates cfg.docGenUrl) with
  | some url => { cfg with docGenUrl := some url }
  | none => cfg

/-- The URL probed by the standalone `centrim-docgen.checkStatus` command
(line 934): `getConfiguration('centrimDocgen').get('ollamaUrl') || 'http://localhost:11434'`.
The manifest default for `centrimDocgen.ollamaUrl` and the `||` fallback
are both `http://localhost:11434`, so an unset or empty value yields that
default. -/
def checkStatusUrl (cfg : Config) : String :=
  match cfg.docgenUrl with
  | some u => if u = "" then localhostUrl else u
  | none => localhostUrl

/-! ## Argument construction and the generation run (extension.ts 252-406) -/

/-- The `config` object posted by the webview form (lines 824-829):
`diffno` and `diffLimit` are `null` or a number, `model` is the selected
radio value, `watch` a boolean. `none` models `null`/absent. -/
structure WebviewConfig where
  diffno : Option Nat
  model : Option String
  diffLimit : Option Nat
  watch : Bool
  deriving Repr, DecidableEq

/-- The allow-list that appears at lines 631-637 of the source — inside the
`<style>` block of the webview HTML template string in `_getHtmlForWebview`,
i.e. as inert text that is never executed. -/
def allowedModels : List String :=
  ["phi3:medium", "mistral:7b", "deepseek-coder:6.7b", "qwen2.5-coder:7b"]

/-- The substitution described by the inert snippet at lines 631-637
(`if (!allowedModels.includes(selectedModel)) selectedModel = 'phi3:medium'`),
stated from the spec's words for comparison with what `_generateDocs`
actually does. -/
def claimedSelectedModel (m : String) : String :=
  if allowedModels.contains m then m else "phi3:medium"

/-- `path.join(extensionUri.fsPath, 'src', 'python_scripts', 'main.py')`
(line 298), on a POSIX platform. -/
def scriptPath (extensionPath : String) : String :=
  extensionPath ++ "/src/python_scripts/main.py"

/-- The argument list built by `_generateDocs` (lines 296-322). JS truthiness:
`if (config.diffno)` skips `null` and `0`; `if (config.model)` skips `null`
and the empty string; `if (config.diffLimit)` falls back to the
`centrimDocgen.diffLimit` setting when `null`/`0`, pushing it only when the
lookup is defined. -/
def buildArgs (cfg : Config) (config : WebviewConfig) (extensionPath : String) :
    List String :=
  [scriptPath extensionPath]
  ++ (match config.diffno with
      | some n => if n = 0 then [] else ["--diffno", toString n]
      | none => [])
  ++ (match config.model with
      | some m => if m = "" then [] else ["--model", m]
      | none => [])
  ++ (match config.diffLimit with
      | some d =>
        if d = 0 then
          match cfg.docgenDiffLimit with
          | some dd => ["--diff-limit", toString dd]
          | none => []
        else ["--diff-limit", toString d]
      | none =>
        match cfg.docgenDiffLimit with
        | some dd => ["--diff-limit", toString dd]
        | none => [])
  ++ (if config.watch then ["--watch"] else [])

/-- Messages posted to the webview during a generation run. -/
inductive Event where
  | generationStarted
  | outputUpdate (data : String)
  | errorUpdate (data : String)
  | generationComplete (success : Bool) (error : Option String)
  deriving Repr, DecidableEq

/-- Observable extension-side state threaded through `_generateDocs`:
the configuration, the events posted to the webview so far, the arguments
of a spawned pipeline process (if any), and the pipeline's log file content
(`none` = absent), which only the spawned process ever touches. -/
structure ExtState where
  cfg : Config
  events : List Event
  spawnedArgs : Option (List String)
  logFile : Option String
  deriving Repr, DecidableEq

/-- `_generateDocs` (lines 252-338) up to the spawn: probe the candidates;
if none responds, post `generationComplete` with `success:false` and return
(no configuration update, no spawn, log untouched); otherwise persist the
discovered URL (line 276), then, if a workspace folder is open, post
`generationStarted` and spawn the pipeline with the built arguments, else
post `generationComplete` with `success:false`. -/
def generateDocs (alive : String → Bool) (hasWorkspace : Bool)
    (config : WebviewConfig) (extensionPath : String) (st : ExtState) : ExtState :=
  match probeLoop alive (candidates st.cfg.docGenUrl) with
  | none =>
    { st with
      events := st.events ++ [Event.generationComplete false (some "No Ollama server found.")] }
  | some url =>
    let cfg1 : Config := { st.cfg with docGenUrl := some url }
    if hasWorkspace then
      { st with
        cfg := cfg1
        events := st.events ++ [Event.generationStarted]
        spawnedArgs := some (buildArgs cfg1 config extensionPath) }
    else
      { st with
        cfg := cfg1
        events := st.events ++ [Event.generationComplete false (some "No workspace folder open.")] }

/-- The `generationComplete` message payload posted by the `close` handler. -/
structure CompletionMsg where
  success : Bool
  code : Option Int
  deriving Repr, DecidableEq

/-- The `pythonProcess.on('close', (code) => ...)` handler (lines 357-379):
`code === 0` posts `{success: true}`; anything else (a non-zero code, or
`null` when the process died to a signal) posts `{success: false, code}`. -/
def onClose (code : Option Int) : CompletionMsg :=
  if code = some 0 then ⟨true, none⟩ else ⟨false, code⟩

/-! ## Cancellation (extension.ts 250, 407-412) -/

/-- Panel state relevant to cancellation: the `_currentPythonProcess` handle
(line 250, `null` initially) and, for observability, the list of process
handles that have been sent `SIGTERM`. Handles are abstracted as naturals. -/
structure PanelState where
  currentPythonProcess : Option Nat
  killed : List Nat
  deriving Repr, DecidableEq

/-- `stopGeneration` (lines 407-412): if a process handle is held, send it
`SIGTERM` and clear the handle; otherwise do nothing. -/
def stopGeneration (s : PanelState) : PanelState :=
  match s.currentPythonProcess with
  | some p => { currentPythonProcess := none, killed := s.killed ++ [p] }
  | none => s

/-! ## Spec-modelled pipeline pieces

The Python pipeline `src/python_scripts/main.py` is spawned by the
extension (line 337) and listed in `package.json`'s `files`, but is not
among the checked-in sources. The definitions below are modelled from the
spec (sections 4.3, 4.5 and 5) and carry `Modelled from the spec:` doc
comments. -/

/-- Commit metadata as produced by the Diff Extractor. -/
structure Commit where
  hash : String
  author : String
  date : String
  message : String
  deriving Repr, DecidableEq

/-- One appended log block, kept structured (its Markdown rendering embeds
exactly these fields plus the summary). -/
structure LogEntry where
  hash : String
  author : String
  date : String
  message : String
  summary : String
  deriving Repr, DecidableEq

/-- Modelled from the spec: the Log Appender's block for one commit
(spec section 4.5) — commit metadata plus the summarizer's text. -/
def mkEntry (summarize : Commit → String) (c : Commit) : LogEntry :=
  ⟨c.hash, c.author, c.date, c.message, summarize c⟩

/-- Modelled from the spec: the sequential batch loop of `main.py`
(spec sections 2, 4.4 and 5). Commits are processed one at a time in
order; `cancelAt = some k` means cancellation is signaled while the
summarizer call for the commit at index `k` is in flight, so that commit
produces no log entry and nothing after it runs; `none` means the run
completes. `i` is the index of the head commit. -/
def runBatch (summarize : Commit → String) (cancelAt : Option Nat) :
    List Commit → Nat → List LogEntry
  | [], _ => []
  | c :: rest, i =>
    if cancelAt = some i then []
    else mkEntry summarize c :: runBatch summarize cancelAt rest (i + 1)

/-- Modelled from the spec: Diff Bounding (spec section 4.3) of `main.py`.
Diff text is represented as its character sequence; `marker` is the
pipeline's truncation marker, left abstract. Returns the text unchanged
(not truncated) when within the limit, else the first `L` characters with
the marker appended (truncated). -/
def bounding (marker : List Char) (D : List Char) (L : Nat) : List Char × Bool :=
  if D.length ≤ L then (D, false) else (D.take L ++ marker, true)

/-- Modelled from the spec: the Log Appender's file mutation
(spec section 4.5) of `main.py` — open the log for append, creating it
with no header when absent (`none`), and append one formatted block. -/
def appendEntry (file : Option String) (block : String) : String :=
  (match file with | some c => c | none => "") ++ block

/-- Modelled from the spec: writing a batch of blocks sequentially, each
through `appendEntry` on the file produced so far. -/
def writeAll : Option String → List String → String
  | file, [] => (match file with | some c => c | none => "")
  | file, b :: bs => writeAll (some (appendEntry file b)) bs

/-- A small concrete commit batch used to instantiate universally
quantified statements. -/
def demoCommits : List Commit :=
  [⟨"a1f", "alice", "2025-07-22T15:40:44+05:30", "feat: one"⟩,
   ⟨"b2e", "bob", "2025-07-23T14:15:39+05:30", "fix: two"⟩,
   ⟨"c3d", "carol", "2025-07-24T09:01:02+05:30", "docs: three"⟩]

/-! ## Helper lemmas -/

theorem probeLoop_eq_find (alive : String → Bool) (l : List String) :
    probeLoop alive l = l.find? alive := by
  induction l with
  | nil => rfl
  | cons a l ih =>
    by_cases h : alive a <;> simp [probeLoop, List.find?_cons, h, ih]

theorem probeLoop_mem {alive : String → Bool} {l : List String} {u : String}
    (h : probeLoop alive l = some u) : u ∈ l := by
  induction l with
  | nil => simp [probeLoop] at h
  | cons a l ih =>
    by_cases ha : alive a
    · simp [probeLoop, ha] at h
      simp [h]
    · simp only [probeLoop, ha, if_false] at h
      exact List.mem_cons_of_mem _ (ih h)

theorem mem_candidates_ne_empty {o : Option String} {u : String}
    (h : u ∈ candidates o) : u ≠ "" := by
  simp only [candidates, List.mem_filterMap] at h
  obtain ⟨v, -, hv⟩ := h
  cases v with
  | none => exact absurd hv (by simp)
  | some s =>
    by_cases hs : s = ""
    · simp [hs] at hv
    · simp only [hs, if_false] at hv
      simp only [Option.some.injEq] at hv
      exact hv ▸ hs

theorem candidates_none_eval : candidates none = [localhostUrl, loopbackUrl] := by
  decide

theorem candidates_empty_eval : candidates (some "") = [localhostUrl, loopbackUrl] := by
  decide

theorem candidates_some_eval {u : String} (hu : u ≠ "") :
    candidates (some u) = [u, localhostUrl, loopbackUrl] := by
  simp [candidates, hu, localhostUrl, loopbackUrl]

theorem runBatch_none_map (summarize : Commit → String) :
    ∀ (l : List Commit) (i : Nat),
      runBatch summarize none l i = l.map (mkEntry summarize)
  | [], _ => rfl
  | c :: rest, i => by
    simp [runBatch, runBatch_none_map summarize rest (i + 1)]

theorem runBatch_cancel_take (summarize : Commit → String) (k : Nat) :
    ∀ (l : List Commit) (i : Nat), i ≤ k →
      runBatch summarize (some k) l i = (l.take (k - i)).map (mkEntry summarize)
  | [], _, _ => by simp [runBatch]
  | c :: rest, i, hik => by
    by_cases hk : k = i
    · subst hk
      simp [runBatch, Nat.sub_self]
    · have hlt : i < k := lt_of_le_of_ne hik (Ne.symm hk)
      have hcond : ¬ ((some k : Option Nat) = some i) := by simp [hk]
      obtain ⟨m, hm⟩ : ∃ m, k - i = m + 1 := ⟨k - i - 1, by omega⟩
      have h2 : k - (i + 1) = m := by omega
      have ih := runBatch_cancel_take summarize k rest (i + 1) (by omega)
      simp [runBatch, hcond, hm, h2, ih]

theorem string_append_empty (s : String) : s ++ "" = s := by simp

theorem string_empty_append (s : String) : "" ++ s = s := by simp

theorem writeAll_some (blocks : List String) :
    ∀ p : String, writeAll (some p) blocks = p ++ writeAll none blocks := by
  induction blocks with
  | nil => intro p; simp [writeAll]
  | cons b bs ih =>
    intro p
    show writeAll (some (appendEntry (some p) b)) bs
        = p ++ writeAll (some (appendEntry none b)) bs
    simp only [appendEntry]
    rw [ih (p ++ b), ih ("" ++ b), string_empty_append, String.append_assoc]

/-! ## Claim theorems -/

/-- C1: in every probe run (sidebar check, panel check, and the
pre-generation check of `_generateDocs`), the candidate list is exactly
the user-configured URL followed by `http://localhost:11434` and
`http://127.0.0.1:11434` (with the user URL omitted when unset or empty),
and the selected URL is the first candidate, in that order, whose liveness
request succeeds; when only the third candidate responds, the third is
selected. -/
theorem probe_selects_first_live_candidate (alive : String → Bool)
    (u : String) (cfg : Config) :
    candidates none = [localhostUrl, loopbackUrl]
    ∧ candidates (some "") = [localhostUrl, loopbackUrl]
    ∧ (u ≠ "" → candidates (some u) = [u, localhostUrl, loopbackUrl])
    ∧ sidebarProbe alive cfg = (candidates cfg.docGenUrl).find? alive
    ∧ panelProbe alive cfg = (candidates cfg.docGenUrl).find? alive
    ∧ generateDocsProbe alive cfg = (candidates cfg.docGenUrl).find? alive
    ∧ (u ≠ "" → alive u = false → alive localhostUrl = false →
        alive loopbackUrl = true →
        probeLoop alive (candidates (some u)) = some loopbackUrl) := by
  refine ⟨candidates_none_eval, candidates_empty_eval,
    fun hu => candidates_some_eval hu,
    probeLoop_eq_find alive _, probeLoop_eq_find alive _,
    probeLoop_eq_find alive _, ?_⟩
  intro hu h1 h2 h3
  rw [candidates_some_eval hu]
  simp [probeLoop, h1, h2, h3]

/-- Witness for C1: with user URL `http://10.0.0.7:11434` and only the
loopback default responding, the probe selects the loopback URL. -/
theorem probe_selects_first_live_candidate_witness :
    ("http://10.0.0.7:11434" ≠ "")
    ∧ candidates (some "http://10.0.0.7:11434")
        = ["http://10.0.0.7:11434", localhostUrl, loopbackUrl]
    ∧ probeLoop (fun v => v == loopbackUrl)
        (candidates (some "http://10.0.0.7:11434")) = some loopbackUrl := by
  have h := probe_selects_first_live_candidate (fun v => v == loopbackUrl)
    "http://10.0.0.7:11434" ⟨none, none, none⟩
  exact ⟨by decide, h.2.2.1 (by decide),
    h.2.2.2.2.2.2 (by decide) (by decide) (by decide) (by decide)⟩

/-- C2: when no candidate endpoint responds during the pre-generation
probe, `_generateDocs` aborts before spawning the pipeline: nothing is
spawned, the log file is untouched, the configuration is unchanged, and
the only new event is a completion with `success = false`. -/
theorem generateDocs_aborts_when_unreachable (alive : String → Bool)
    (hasWorkspace : Bool) (config : WebviewConfig) (extensionPath : String)
    (st : ExtState)
    (h : probeLoop alive (candidates st.cfg.docGenUrl) = none) :
    (generateDocs alive hasWorkspace config extensionPath st).spawnedArgs
        = st.spawnedArgs
    ∧ (generateDocs alive hasWorkspace config extensionPath st).logFile
        = st.logFile
    ∧ (generateDocs alive hasWorkspace config extensionPath st).cfg = st.cfg
    ∧ (generateDocs alive hasWorkspace config extensionPath st).events
        = st.events
          ++ [Event.generationComplete false (some "No Ollama server found.")] := by
  simp [generateDocs, h]

/-- Witness for C2: with no endpoint alive and an empty starting state,
the run spawns nothing. -/
theorem generateDocs_aborts_when_unreachable_witness :
    probeLoop (fun _ => false)
      (candidates ((⟨⟨none, none, none⟩, [], none, none⟩ : ExtState).cfg.docGenUrl))
      = none
    ∧ (generateDocs (fun _ => false) true ⟨none, none, none, false⟩ "/ext"
        ⟨⟨none, none, none⟩, [], none, none⟩).spawnedArgs = none := by
  have h := generateDocs_aborts_when_unreachable (fun _ => false) true
    ⟨none, none, none, false⟩ "/ext" ⟨⟨none, none, none⟩, [], none, none⟩
    (by decide)
  exact ⟨by decide, h.1⟩

/-- C3: `_generateDocs` passes the configured model name through to the
pipeline arguments unchanged even when it is not in the allow-list; the
allow-list substitution snippet (lines 631-637) is inert text inside the
webview HTML string and never executes, so no fallback to `phi3:medium`
happens. The substitution the claim (and the snippet) describe is
`claimedSelectedModel`, shown here to disagree with the built arguments. -/
theorem model_passthrough_at_disallowed :
    buildArgs ⟨none, none, none⟩ ⟨none, some "llama2:13b", none, false⟩ "/ext"
      = ["/ext/src/python_scripts/main.py", "--model", "llama2:13b"]
    ∧ allowedModels.contains "llama2:13b" = false
    ∧ claimedSelectedModel "llama2:13b" = "phi3:medium"
    ∧ buildArgs ⟨none, none, none⟩ ⟨none, some "phi3:medium", none, false⟩ "/ext"
      = ["/ext/src/python_scripts/main.py", "--model", "phi3:medium"] := by
  exact ⟨by decide, by decide, by decide, by decide⟩

/-- C4: the completion message of the `close` handler reports success
exactly when the exit code is `0`; every non-zero exit code yields a
failure message carrying that code. -/
theorem onClose_success_iff_zero (code : Option Int) (c : Int) (hc : c ≠ 0) :
    ((onClose code).success = true ↔ code = some 0)
    ∧ onClose (some c) = ⟨false, some c⟩
    ∧ onClose (some 0) = ⟨true, none⟩ := by
  refine ⟨?_, ?_, rfl⟩
  · by_cases h : code = some 0 <;> simp [onClose, h]
  · have hne : (some c : Option Int) ≠ some 0 := by simpa using hc
    simp [onClose, hne]

/-- Witness for C4: exit code 3 yields a failure message carrying 3. -/
theorem onClose_success_iff_zero_witness :
    ((3 : Int) ≠ 0) ∧ onClose (some 3) = ⟨false, some 3⟩ :=
  ⟨by decide, (onClose_success_iff_zero (some 3) 3 (by decide)).2.1⟩

/-- C5: cancellation signaled while commit `k` is in flight terminates the
in-flight process (`stopGeneration` clears and SIGTERMs the held handle),
writes no log entry for commit `k`, and leaves exactly the entries of the
commits processed before `k` — the same prefix an uncancelled run would
have produced. -/
theorem cancellation_preserves_earlier_entries (summarize : Commit → String)
    (commits : List Commit) (k : Nat) (hk : k < commits.length)
    (hfresh : (commits.get ⟨k, hk⟩).hash ∉ (commits.take k).map Commit.hash) :
    runBatch summarize (some k) commits 0
        = (commits.take k).map (mkEntry summarize)
    ∧ runBatch summarize (some k) commits 0
        = (runBatch summarize none commits 0).take k
    ∧ mkEntry summarize (commits.get ⟨k, hk⟩)
        ∉ runBatch summarize (some k) commits 0
    ∧ (∀ s : PanelState, ∀ p : Nat, s.currentPythonProcess = some p →
        (stopGeneration s).currentPythonProcess = none
        ∧ (stopGeneration s).killed = s.killed ++ [p]) := by
  have h0 : runBatch summarize (some k) commits 0
      = (commits.take k).map (mkEntry summarize) := by
    simpa using runBatch_cancel_take summarize k commits 0 (Nat.zero_le k)
  refine ⟨h0, ?_, ?_, ?_⟩
  · rw [h0, runBatch_none_map, List.map_take]
  · rw [h0]
    intro hmem
    obtain ⟨c, hc, hce⟩ := List.mem_map.mp hmem
    have : c.hash = (commits.get ⟨k, hk⟩).hash :=
      congrArg LogEntry.hash hce
    exact hfresh (this ▸ List.mem_map_of_mem Commit.hash hc)
  · intro s p hp
    simp [stopGeneration, hp]

/-- Witness for C5: cancelling during the second commit of a three-commit
batch leaves only the first entry, and the second commit has no entry. -/
theorem cancellation_preserves_earlier_entries_witness :
    runBatch (fun _ => "s") (some 1) demoCommits 0
        = (demoCommits.take 1).map (mkEntry (fun _ => "s"))
    ∧ mkEntry (fun _ => "s") (demoCommits.get ⟨1, by decide⟩)
        ∉ runBatch (fun _ => "s") (some 1) demoCommits 0 := by
  have h := cancellation_preserves_earlier_entries (fun _ => "s") demoCommits 1
    (by decide) (by decide)
  exact ⟨h.1, h.2.2.1⟩

/-- C6: after a probe that finds a responding candidate, the discovered
URL is persisted into the configuration the probes read, and it becomes
the first candidate of any subsequent probe (it is never empty); when no
candidate responds, the configuration is left unchanged. -/
theorem probe_persists_discovered_url (alive : String → Bool) (cfg : Config)
    (url : String) :
    (probeLoop alive (candidates cfg.docGenUrl) = some url →
      probeAndPersist alive cfg = { cfg with docGenUrl := some url }
      ∧ url ≠ ""
      ∧ (candidates (some url)).head? = some url)
    ∧ (probeLoop alive (candidates cfg.docGenUrl) = none →
      probeAndPersist alive cfg = cfg) := by
  constructor
  · intro h
    have hne : url ≠ "" := mem_candidates_ne_empty (probeLoop_mem h)
    refine ⟨by simp [probeAndPersist, h], hne, ?_⟩
    rw [candidates_some_eval hne]
    rfl
  · intro h
    simp [probeAndPersist, h]

/-- Witness for C6: with every URL alive and no user URL configured, the
probe discovers `http://localhost:11434` and persists it. -/
theorem probe_persists_discovered_url_witness :
    probeLoop (fun _ => true)
      (candidates ((⟨none, none, none⟩ : Config).docGenUrl)) = some localhostUrl
    ∧ probeAndPersist (fun _ => true) ⟨none, none, none⟩
        = ⟨some localhostUrl, none, none⟩ := by
  have h := probe_persists_discovered_url (fun _ => true) ⟨none, none, none⟩
    localhostUrl
  exact ⟨by decide, (h.1 (by decide)).1⟩

/-- C7: diff bounding returns the text unchanged (not truncated) when its
character length is within the limit, and otherwise the first `L`
characters with the marker appended (truncated); the output length never
exceeds `L` plus the marker length. Determinism is immediate: `bounding`
is a pure function of `D` and `L`. -/
theorem bounding_respects_limit (marker D : List Char) (L : Nat) :
    (D.length ≤ L → bounding marker D L = (D, false))
    ∧ (L < D.length → bounding marker D L = (D.take L ++ marker, true))
    ∧ (bounding marker D L).1.length ≤ L + marker.length := by
  refine ⟨fun h => by simp [bounding, h], fun h => ?_, ?_⟩
  · have hn : ¬ D.length ≤ L := Nat.not_le.mpr h
    simp [bounding, hn]
  · by_cases h : D.length ≤ L
    · simp [bounding, h]
      omega
    · simp [bounding, h, List.length_append, List.length_take]

/-- Witness for C7: a six-character diff is unchanged under limit 10 and
truncated to its first three characters under limit 3. -/
theorem bounding_respects_limit_witness :
    ("abcdef".toList.length ≤ 10
      ∧ bounding "..".toList "abcdef".toList 10 = ("abcdef".toList, false))
    ∧ (3 < "abcdef".toList.length
      ∧ bounding "..".toList "abcdef".toList 3
          = ("abcdef".toList.take 3 ++ "..".toList, true)) := by
  have h10 := bounding_respects_limit "..".toList "abcdef".toList 10
  have h3 := bounding_respects_limit "..".toList "abcdef".toList 3
  exact ⟨⟨by decide, h10.1 (by decide)⟩, ⟨by decide, h3.2.1 (by decide)⟩⟩

/-- C8: the log is append-only — writing blocks sequentially yields the
prior content followed by exactly the blocks in call order, the file is
created with no header when absent, and appending is the only mutation
(each step is literal string concatenation on the right). -/
theorem log_appender_append_only (prior b : String) (blocks bs : List String) :
    writeAll none ([] : List String) = ""
    ∧ writeAll none (b :: bs) = b ++ writeAll none bs
    ∧ writeAll (some prior) blocks = prior ++ writeAll none blocks
    ∧ appendEntry (some prior) b = prior ++ b
    ∧ appendEntry none b = "" ++ b := by
  refine ⟨rfl, ?_, writeAll_some blocks prior, rfl, rfl⟩
  show writeAll (some (appendEntry none b)) bs = b ++ writeAll none bs
  simp only [appendEntry]
  rw [writeAll_some bs ("" ++ b), string_empty_append]

/-- C9: the probes read and persist under section `centrimDocGen` while
the `checkStatus` command and the diff-limit default lookup read section
`centrimDocgen`; hence persisting a discovered URL never changes what
`checkStatus` probes, the probe candidates are independent of the
manifest-declared `centrimDocgen.ollamaUrl` value, and vice versa. -/
theorem config_sections_are_disjoint (alive : String → Bool) (cfg : Config)
    (g g1 g2 d d1 d2 : Option String) (li li1 li2 : Option Nat)
    (config : WebviewConfig) (extensionPath : String) :
    (probeAndPersist alive cfg).docgenUrl = cfg.docgenUrl
    ∧ (probeAndPersist alive cfg).docgenDiffLimit = cfg.docgenDiffLimit
    ∧ checkStatusUrl (probeAndPersist alive cfg) = checkStatusUrl cfg
    ∧ sidebarProbe alive ⟨g, d1, li1⟩ = sidebarProbe alive ⟨g, d2, li2⟩
    ∧ panelProbe alive ⟨g, d1, li1⟩ = panelProbe alive ⟨g, d2, li2⟩
    ∧ generateDocsProbe alive ⟨g, d1, li1⟩ = generateDocsProbe alive ⟨g, d2, li2⟩
    ∧ checkStatusUrl ⟨g1, d, li⟩ = checkStatusUrl ⟨g2, d, li⟩
    ∧ buildArgs ⟨g1, d1, li⟩ config extensionPath
        = buildArgs ⟨g2, d2, li⟩ config extensionPath := by
  refine ⟨?_, ?_, ?_, rfl, rfl, rfl, rfl, rfl⟩
  all_goals cases h : probeLoop alive (candidates cfg.docGenUrl)
    <;> simp [probeAndPersist, h, checkStatusUrl]

/-- C10: `stopGeneration` with no held process handle is a no-op; after
any call the handle is null, and a second call changes nothing
(idempotence). -/
theorem stopGeneration_idempotent (s : PanelState) :
    (s.currentPythonProcess = none → stopGeneration s = s)
    ∧ (stopGeneration s).currentPythonProcess = none
    ∧ stopGeneration (stopGeneration s) = stopGeneration s := by
  refine ⟨fun h => by simp [stopGeneration, h], ?_, ?_⟩
  · cases h : s.currentPythonProcess <;> simp [stopGeneration, h]
  · cases h : s.currentPythonProcess <;> simp [stopGeneration, h]

/-- Witness for C10: with no handle held, `stopGeneration` does nothing. -/
theorem stopGeneration_idempotent_witness :
    ((⟨none, []⟩ : PanelState).currentPythonProcess = none)
    ∧ stopGeneration ⟨none, []⟩ = ⟨none, []⟩ :=
  ⟨rfl, (stopGeneration_idempotent ⟨none, []⟩).1 rfl⟩

end CentrimDocgen
